import Mathlib

/-!
Verification development for the equation-solver service in
`src/backend/app.py`.  The core function `solve_equation` and the HTTP
handler `solve` are embedded shallowly below.  The string-processing
pipeline (character substitutions, absolute-value bar rewriting,
splitting on `=`, stripping) is transcribed directly from the source.
The external symbolic-algebra engine (sympy) is treated as an injected
capability: `solve_equation` is parameterised over an `Engine` record
whose fields correspond to the sympy operations the source calls
(`parse_expr`, `solve`, `simplify`, `evalf`, `str`), each of which may
fail.  Structural operations the source performs on sympy expression
trees (`free_symbols`, `atoms(Abs)`, `is_number`, `args[0]`, unary
negation) are embedded as functions on a model expression type.
-/

namespace EquationApp

/-! ### Characters appearing in the source's replacement literals

The source line `equation_str.replace("âˆ’", "-")` contains, as its
pattern, the three-character sequence U+00E2 U+02C6 U+2019 (the UTF-8
bytes of the minus sign U+2212 mis-decoded as Windows-1252), not the
single character U+2212 named by the adjacent comment. -/

def mojA : Char := Char.ofNat 0xE2

def mojB : Char := Char.ofNat 0x2C6

def mojC : Char := Char.ofNat 0x2019

/-- The Unicode minus sign U+2212. -/
def uminus : Char := Char.ofNat 0x2212

/-- Embeds `equation_str.replace("âˆ’", "-")` (line 24): Python
`str.replace` scanning left to right, replacing each non-overlapping
occurrence of the three-character pattern actually present in the
source literal. -/
def replaceUnicodeMinus : List Char → List Char
  | x :: y :: z :: rest =>
    if x = mojA ∧ y = mojB ∧ z = mojC then '-' :: replaceUnicodeMinus rest
    else x :: replaceUnicodeMinus (y :: z :: rest)
  | l => l

/-- Embeds `equation_str.replace("^", "**")` (line 26). -/
def replaceCaret : List Char → List Char
  | [] => []
  | c :: rest =>
    if c = '^' then '*' :: '*' :: replaceCaret rest
    else c :: replaceCaret rest

/-- Embeds `re.sub(r'\|([^|]+)\|', replace_abs, equation_str)`
(lines 29-32) as a left-to-right scan.  The first argument is the
pending state: `none` when not inside a candidate bar pair, and
`some acc` when a bar has been opened and `acc` holds the (reversed)
non-bar characters read since.  A pair enclosing at least one
character becomes `Abs(...)`; an opening bar immediately followed by
another bar, or left unclosed, stays literal, exactly as the regex
(which requires at least one non-bar character between the bars)
leaves it unmatched. -/
def absBars : Option (List Char) → List Char → List Char
  | none, [] => []
  | none, c :: rest =>
    if c = '|' then absBars (some []) rest
    else c :: absBars none rest
  | some acc, [] => '|' :: acc.reverse
  | some acc, c :: rest =>
    if c = '|' then
      if acc = [] then '|' :: absBars (some []) rest
      else 'A' :: 'b' :: 's' :: '(' :: (acc.reverse ++ ')' :: absBars none rest)
    else absBars (some (c :: acc)) rest

/-- The full input normalisation performed by lines 22-32 of
`solve_equation`, in source order: minus-literal replacement, caret
replacement, absolute-value bar rewriting. -/
def normalize (s : List Char) : List Char :=
  absBars none (replaceCaret (replaceUnicodeMinus s))

/-- Characters removed by Python `str.strip()` (the ASCII whitespace
characters; the inputs of interest contain no exotic Unicode spaces). -/
def isSpaceChar (c : Char) : Bool :=
  c = ' ' ∨ c = Char.ofNat 9 ∨ c = Char.ofNat 10 ∨ c = Char.ofNat 13 ∨
    c = Char.ofNat 11 ∨ c = Char.ofNat 12

/-- Embeds Python `str.strip()`. -/
def strip (s : List Char) : List Char :=
  ((s.dropWhile isSpaceChar).reverse.dropWhile isSpaceChar).reverse

/-- Split a character list at the first occurrence of `sep`, returning
the parts before and after it, or `none` when `sep` does not occur. -/
def splitFirst (sep : Char) : List Char → Option (List Char × List Char)
  | [] => none
  | c :: rest =>
    if c = sep then some ([], rest)
    else
      match splitFirst sep rest with
      | some (b, a) => some (c :: b, a)
      | none => none

/-- Embeds Python `equation_str.split("=", 1)` (line 37): at most one
split, at the first `=`. -/
def splitEq1 (s : List Char) : List (List Char) :=
  match splitFirst '=' s with
  | some (l, r) => [l, r]
  | none => [s]

/-! ### Model of sympy expression trees

Only the structure `solve_equation` itself inspects is needed:
numbers, symbols, arithmetic operators, and the `Abs` node. -/

inductive Expr where
  | num (q : ℚ)
  | sym (name : String)
  | add (a b : Expr)
  | sub (a b : Expr)
  | mul (a b : Expr)
  | div (a b : Expr)
  | neg (a : Expr)
  | abs (a : Expr)
deriving DecidableEq, Repr

/-- Names of the free symbols of an expression, with duplicates, in
traversal order (model of the underlying set `expr.free_symbols`). -/
def collectSyms : Expr → List String
  | .num _ => []
  | .sym n => [n]
  | .add a b | .sub a b | .mul a b | .div a b => collectSyms a ++ collectSyms b
  | .neg a | .abs a => collectSyms a

/-- All `Abs` sub-terms of an expression, with duplicates (model of
`expr.atoms(Abs)` before de-duplication). -/
def collectAbs : Expr → List Expr
  | .num _ => []
  | .sym _ => []
  | .add a b | .sub a b | .mul a b | .div a b => collectAbs a ++ collectAbs b
  | .neg a => collectAbs a
  | .abs a => Expr.abs a :: collectAbs a

/-- Model of `equation.atoms(Abs)` (line 71): the set of `Abs`
sub-terms of both sides, as a duplicate-free list.  The source only
uses its size, and its unique element when that size is 1, so the
list order is irrelevant. -/
def absAtomsEq (eq : Expr × Expr) : List Expr :=
  (collectAbs eq.1 ++ collectAbs eq.2).dedup

/-- Model of `abs_expr.args[0]` (line 76). -/
def absInner : Expr → Expr
  | .abs e => e
  | e => e

/-- Model of sympy `is_number` on this fragment: an expression with no
free symbols evaluates to a number (line 79, `other_side.is_number`). -/
def isNumber (e : Expr) : Bool :=
  (collectSyms e).isEmpty

/-- Model of sympy unary negation `-other_side` (line 81): negating a
numeric literal folds into the literal, anything else becomes a
negation node. -/
def negExpr : Expr → Expr
  | .num q => .num (-q)
  | e => .neg e

/-- Lexicographic comparison of character lists by code point, the
order Python string comparison uses. -/
def lexLeb : List Char → List Char → Bool
  | [], _ => true
  | _ :: _, [] => false
  | a :: as, b :: bs =>
    if a < b then true
    else if b < a then false
    else lexLeb as bs

/-- Lexicographic order on strings (shown below to agree with the
ambient linear order on `String`). -/
def nameLe (a b : String) : Prop :=
  lexLeb a.data b.data = true

instance : DecidableRel nameLe := fun a b =>
  inferInstanceAs (Decidable (lexLeb a.data b.data = true))

/-- Model of `equation.free_symbols` together with the sort the source
applies: the distinct symbol names of both sides, sorted by name.
`sorted(symbols_in_eq, key=str)[0]` (line 65) is the head of this list
when there are several symbols, and `list(symbols_in_eq)[0]` (line 67)
is its head when there is exactly one. -/
def freeSymbols (eq : Expr × Expr) : List String :=
  List.insertionSort nameLe (collectSyms eq.1 ++ collectSyms eq.2).dedup

/-! ### Exceptions and the engine interface -/

/-- A Python exception as the HTTP handler distinguishes them:
`ValueError` (caught at line 126) or any other exception (line 128). -/
inductive PyError where
  | valueError (msg : String)
  | otherError (msg : String)
deriving DecidableEq, Repr

/-- A single-quote character, used to build message literals. -/
def sq : String := String.mk [Char.ofNat 39]

/-- The message raised at line 61. -/
def noVariableMsg : String :=
  "No variable found in the equation. Please include a variable like " ++
    sq ++ "x" ++ sq ++ "."

/-- The injected symbolic-algebra capability: the sympy operations the
source calls, each allowed to fail with a message.  `solve` is
`solve(Eq(lhs, rhs), var, dict=True)` (the solution values bound to
`var`), `solveReal` the same call with `domain=S.Reals`. -/
structure Engine where
  parse : String → Except String Expr
  solve : Expr → Expr → String → Except String (List Expr)
  solveReal : Expr → Expr → String → Except String (List Expr)
  simplify : Expr → Except String Expr
  evalf : Expr → Except String ℚ
  str : Expr → String

/-! ### The embedded core pipeline -/

/-- Lines 22-55 of `solve_equation`: normalisation, the `=` split with
the `len(parts) != 2` guard, stripping, and parsing of the two sides
(or of the whole string against zero when no `=` occurs).  A parse
failure is re-raised as `ValueError` with the context-specific
prefix. -/
def parseEquation (E : Engine) (input : String) : Except PyError (Expr × Expr) :=
  let s := normalize input.data
  if s.contains '=' then
    match splitEq1 s with
    | [l, r] =>
      let lstr := strip l
      let rstr := strip r
      match E.parse (String.mk lstr) with
      | .error e => .error (.valueError ("Could not parse equation: " ++ e))
      | .ok leftExpr =>
        match E.parse (String.mk rstr) with
        | .error e => .error (.valueError ("Could not parse equation: " ++ e))
        | .ok rightExpr => .ok (leftExpr, rightExpr)
    | _ => .error (.valueError "Invalid equation format")
  else
    match E.parse (String.mk (strip s)) with
    | .error e => .error (.valueError ("Could not parse expression: " ++ e))
    | .ok expr => .ok (expr, Expr.num 0)

/-- Lines 57-67: the free-symbol check and the solve-variable
selection.  `freeSymbols` returns the distinct names sorted, so its
head is both `sorted(symbols_in_eq, key=str)[0]` (several symbols) and
`list(symbols_in_eq)[0]` (exactly one symbol). -/
def chooseVar (eq : Expr × Expr) : Except PyError String :=
  match freeSymbols eq with
  | [] => .error (.valueError noVariableMsg)
  | v :: _ => .ok v

/-- Lines 71-88: the three-way solving strategy.  With exactly one
`Abs` atom whose other side is a plain number, the equation is split
into the two branches and the branch solutions concatenated,
branch one first; otherwise the whole equation is handed to the
engine (real domain when `Abs` atoms are present). -/
def dispatchSolutions (E : Engine) (eq : Expr × Expr) (var : String) :
    Except String (List Expr) :=
  match absAtomsEq eq with
  | [] => E.solve eq.1 eq.2 var
  | [a] =>
    let inner := absInner a
    let otherSide := if (collectAbs eq.1).contains a then eq.2 else eq.1
    if isNumber otherSide then do
      let l1 ← E.solve inner otherSide var
      let l2 ← E.solve inner (negExpr otherSide) var
      pure (l1 ++ l2)
    else E.solveReal eq.1 eq.2 var
  | _ :: _ :: _ => E.solveReal eq.1 eq.2 var

/-- Fuel-driven decimal digits of a natural number, most significant
first (empty for zero; the fuel bounds the recursion depth). -/
def natDigits : ℕ → ℕ → List Char
  | 0, _ => []
  | _ + 1, 0 => []
  | fuel + 1, n + 1 =>
    natDigits fuel ((n + 1) / 10) ++ [Char.ofNat (48 + (n + 1) % 10)]

/-- Decimal numeral of a natural number. -/
def natStr (n : ℕ) : String :=
  if n = 0 then "0" else String.mk (natDigits (n + 1) n)

/-- Round `10 * q` to the nearest integer, ties to even (the rounding
used by Python fixed-point float formatting), computed on the
numerator and denominator directly. -/
def roundTenths (q : ℚ) : ℤ :=
  let d : ℤ := (q.den : ℤ)
  let n : ℤ := 10 * q.num
  let f : ℤ := n.fdiv d
  let twice : ℤ := 2 * (n - f * d)
  if twice < d then f
  else if d < twice then f + 1
  else if f % 2 = 0 then f else f + 1

/-- Model of Python `f-string` formatting with `:.1f` applied to the
numeric value of a solution (line 96): fixed-point rendering with
exactly one digit after the decimal point. -/
def formatFixed1 (q : ℚ) : String :=
  let n := roundTenths q
  (if n < 0 then "-" else "") ++ natStr (n.natAbs / 10) ++ "." ++ natStr (n.natAbs % 10)

/-- Lines 93-96, the inner `format_value`: simplify the value; if the
simplified value is a number, render `value.evalf()` with one decimal
place, otherwise render `str(value)`. -/
def format_value (E : Engine) (v : Expr) : Except String String := do
  let value ← E.simplify v
  if isNumber value then do
    let q ← E.evalf value
    pure (formatFixed1 q)
  else
    pure (E.str value)

/-- The body of the `try` block of lines 70-101: solving and then
formatting.  An empty solution list returns the no-solution message
(line 91); a single solution is formatted alone (line 99); several are
joined with `", "` in dispatch order (line 101). -/
def solveFormatCore (E : Engine) (eq : Expr × Expr) (var : String) :
    Except String String := do
  let solutions ← dispatchSolutions E eq var
  match solutions with
  | [] => pure ("No solution found for " ++ var ++ ".")
  | [sol] => do
    let s ← format_value E sol
    pure (var ++ " = \"" ++ s ++ "\"")
  | sols => do
    let parts ← sols.mapM (fun sol => do
      let s ← format_value E sol
      pure (var ++ " = \"" ++ s ++ "\""))
    pure (String.intercalate ", " parts)

/-- Lines 70-104: the `try` block around solving and formatting.  Any
engine failure inside it is re-raised as
`ValueError("Could not solve equation: ...")` (line 104). -/
def solveFormat (E : Engine) (eq : Expr × Expr) (var : String) :
    Except PyError String :=
  match solveFormatCore E eq var with
  | .ok s => .ok s
  | .error e => .error (.valueError ("Could not solve equation: " ++ e))

/-- The embedded `solve_equation` (lines 13-104): normalisation and
parsing, variable selection, then solving and formatting.  The result
is either the formatted string or a `ValueError`-classified failure. -/
def solve_equation (E : Engine) (input : String) : Except PyError String := do
  let eq ← parseEquation E input
  let var ← chooseVar eq
  solveFormat E eq var

/-! ### The HTTP boundary -/

/-- The observable part of a handler response: HTTP status, the single
JSON key, and its string value. -/
structure HttpResponse where
  status : ℕ
  key : String
  message : String
deriving DecidableEq, Repr

/-- The body value of the missing-parameter response (line 121). -/
def missingParamMsg : String :=
  "Missing " ++ sq ++ "equation" ++ sq ++ " query parameter"

/-- Python `str.strip` on `String`. -/
def stripStr (s : String) : String :=
  String.mk (strip s.data)

/-- The `/solve` handler (lines 117-129), parameterised over the core
it wraps: a missing parameter defaults to `""`, the value is stripped,
an empty result short-circuits to 400 without calling the core;
otherwise the core's outcome is mapped to 200, 400 (`ValueError`) or
500 (any other exception, with the wrapping prefix). -/
def solveHandler (core : String → Except PyError String) (param : Option String) :
    HttpResponse :=
  let equation := stripStr (param.getD "")
  if equation = "" then ⟨400, "error", missingParamMsg⟩
  else
    match core equation with
    | .ok result => ⟨200, "result", result⟩
    | .error (.valueError m) => ⟨400, "error", m⟩
    | .error (.otherError m) => ⟨500, "error", "Error solving equation: " ++ m⟩

/-! ### A concrete model engine

A small instantiation of `Engine` modelling the external engine's
documented behaviour on the fragment the examples exercise: a
tokenizer and precedence parser for arithmetic with `Abs(...)`, a
linear solver, structural simplification (identity on the already
simplified values produced here), exact rational evaluation, and a
plain printer. -/

inductive Token where
  | num (n : ℕ)
  | ident (s : String)
  | plus
  | minus
  | star
  | slash
  | lparen
  | rparen
deriving DecidableEq, Repr

/-- Value of a run of decimal digit characters. -/
def digitsToNat (l : List Char) : ℕ :=
  l.foldl (fun acc c => acc * 10 + (c.toNat - 48)) 0

/-- Fuel-driven tokenizer: whitespace is skipped, digit and letter runs
become number and identifier tokens, single-character operators become
their tokens, anything else fails. -/
def tokenizeAux : ℕ → List Char → Except String (List Token)
  | 0, _ => .error "tokenizer fuel exhausted"
  | _ + 1, [] => .ok []
  | fuel + 1, c :: rest =>
    if isSpaceChar c then tokenizeAux fuel rest
    else if c.isDigit then do
      let ts ← tokenizeAux fuel ((c :: rest).dropWhile Char.isDigit)
      pure (Token.num (digitsToNat ((c :: rest).takeWhile Char.isDigit)) :: ts)
    else if c.isAlpha then do
      let ts ← tokenizeAux fuel ((c :: rest).dropWhile Char.isAlpha)
      pure (Token.ident (String.mk ((c :: rest).takeWhile Char.isAlpha)) :: ts)
    else if c = '+' then do pure (Token.plus :: (← tokenizeAux fuel rest))
    else if c = '-' then do pure (Token.minus :: (← tokenizeAux fuel rest))
    else if c = '*' then do pure (Token.star :: (← tokenizeAux fuel rest))
    else if c = '/' then do pure (Token.slash :: (← tokenizeAux fuel rest))
    else if c = '(' then do pure (Token.lparen :: (← tokenizeAux fuel rest))
    else if c = ')' then do pure (Token.rparen :: (← tokenizeAux fuel rest))
    else .error ("unexpected character " ++ String.mk [c])

/-- Fuel-driven recursive-descent parsing.  The second argument is the
grammar level: 0 parses an additive expression, 1 its operator tail
(with the left operand accumulated in the third argument), 2 a
multiplicative term, 3 its tail, 4 a factor (unary minus, literal,
identifier, `Abs(...)` call, parenthesised expression).  Unary minus
applied to a numeric literal folds into the literal, as the external
parser's auto-evaluation does. -/
def parseLvl : ℕ → ℕ → Expr → List Token → Except String (Expr × List Token)
  | 0, _, _, _ => .error "parser fuel exhausted"
  | fuel + 1, 0, _, ts => do
    let (t, ts1) ← parseLvl fuel 2 (Expr.num 0) ts
    parseLvl fuel 1 t ts1
  | fuel + 1, 1, acc, Token.plus :: ts => do
    let (t, ts1) ← parseLvl fuel 2 (Expr.num 0) ts
    parseLvl fuel 1 (Expr.add acc t) ts1
  | fuel + 1, 1, acc, Token.minus :: ts => do
    let (t, ts1) ← parseLvl fuel 2 (Expr.num 0) ts
    parseLvl fuel 1 (Expr.sub acc t) ts1
  | _ + 1, 1, acc, ts => .ok (acc, ts)
  | fuel + 1, 2, _, ts => do
    let (t, ts1) ← parseLvl fuel 4 (Expr.num 0) ts
    parseLvl fuel 3 t ts1
  | fuel + 1, 3, acc, Token.star :: ts => do
    let (t, ts1) ← parseLvl fuel 4 (Expr.num 0) ts
    parseLvl fuel 3 (Expr.mul acc t) ts1
  | fuel + 1, 3, acc, Token.slash :: ts => do
    let (t, ts1) ← parseLvl fuel 4 (Expr.num 0) ts
    parseLvl fuel 3 (Expr.div acc t) ts1
  | _ + 1, 3, acc, ts => .ok (acc, ts)
  | fuel + 1, 4, _, Token.minus :: ts => do
    let (t, ts1) ← parseLvl fuel 4 (Expr.num 0) ts
    match t with
    | Expr.num q => .ok (Expr.num (-q), ts1)
    | t => .ok (Expr.neg t, ts1)
  | _ + 1, 4, _, Token.num n :: ts => .ok (Expr.num (n : ℚ), ts)
  | fuel + 1, 4, _, Token.ident f :: Token.lparen :: ts => do
    let (e, ts1) ← parseLvl fuel 0 (Expr.num 0) ts
    match ts1 with
    | Token.rparen :: ts2 =>
      if f = "Abs" then .ok (Expr.abs e, ts2)
      else .error ("unknown function " ++ f)
    | _ => .error "expected closing parenthesis"
  | _ + 1, 4, _, Token.ident s :: ts => .ok (Expr.sym s, ts)
  | fuel + 1, 4, _, Token.lparen :: ts => do
    let (e, ts1) ← parseLvl fuel 0 (Expr.num 0) ts
    match ts1 with
    | Token.rparen :: ts2 => .ok (e, ts2)
    | _ => .error "expected closing parenthesis"
  | _ + 1, 4, _, _ => .error "could not parse input"
  | _ + 1, _, _, _ => .error "bad level"

/-- The model parser: tokenize, parse an expression, require all
tokens consumed. -/
def modelParse (s : String) : Except String Expr := do
  let ts ← tokenizeAux (s.data.length + 1) s.data
  let (e, rest) ← parseLvl ((ts.length + 1) * 8) 0 (Expr.num 0) ts
  if rest = [] then .ok e else .error "unexpected trailing tokens"

/-- Rational addition in normalised form (the library operation is
opaque to kernel reduction, so the model computes through `mkRat`). -/
def qAdd (a b : ℚ) : ℚ :=
  mkRat (a.num * (b.den : ℤ) + b.num * (a.den : ℤ)) (a.den * b.den)

/-- Rational multiplication through `mkRat`. -/
def qMul (a b : ℚ) : ℚ :=
  mkRat (a.num * b.num) (a.den * b.den)

/-- Rational subtraction through `mkRat`. -/
def qSub (a b : ℚ) : ℚ :=
  qAdd a (-b)

/-- Rational division through `mkRat` (zero when dividing by zero, as
in the library's convention). -/
def qDiv (a b : ℚ) : ℚ :=
  if b.num < 0 then mkRat (-(a.num * (b.den : ℤ))) (a.den * b.num.natAbs)
  else mkRat (a.num * (b.den : ℤ)) (a.den * b.num.natAbs)

/-- Rational absolute value. -/
def qAbs (a : ℚ) : ℚ :=
  if a.num < 0 then -a else a

/-- Linear-form extraction: `linOf var e = some (a, b)` when `e` is
`a * var + b` with rational coefficients. -/
def linOf (var : String) : Expr → Option (ℚ × ℚ)
  | .num q => some (0, q)
  | .sym s => if s = var then some (1, 0) else none
  | .add a b => do
    let p ← linOf var a
    let q ← linOf var b
    pure (qAdd p.1 q.1, qAdd p.2 q.2)
  | .sub a b => do
    let p ← linOf var a
    let q ← linOf var b
    pure (qSub p.1 q.1, qSub p.2 q.2)
  | .neg a => do
    let p ← linOf var a
    pure (-p.1, -p.2)
  | .mul a b => do
    let p ← linOf var a
    let q ← linOf var b
    if p.1 = 0 then pure (qMul p.2 q.1, qMul p.2 q.2)
    else if q.1 = 0 then pure (qMul q.2 p.1, qMul q.2 p.2)
    else none
  | .div a b => do
    let p ← linOf var a
    let q ← linOf var b
    if q.1 = 0 ∧ q.2 ≠ 0 then pure (qDiv p.1 q.2, qDiv p.2 q.2)
    else none
  | .abs _ => none

/-- The model solver: solves `lhs = rhs` for `var` when the difference
is linear in `var`, failing (like the external solver on unsupported
forms) otherwise. -/
def modelSolve (lhs rhs : Expr) (var : String) : Except String (List Expr) :=
  match linOf var (Expr.sub lhs rhs) with
  | some p =>
    if p.1 = 0 then .ok []
    else .ok [Expr.num (qDiv (-p.2) p.1)]
  | none => .error "equation form not supported by the model solver"

/-- Decimal numeral of an integer. -/
def intStr (n : ℤ) : String :=
  (if n < 0 then "-" else "") ++ natStr n.natAbs

/-- A plain printer, standing in for the external engine's `str`. -/
def exprStr : Expr → String
  | .num q => intStr q.num ++ (if q.den = 1 then "" else "/" ++ natStr q.den)
  | .sym s => s
  | .add a b => exprStr a ++ " + " ++ exprStr b
  | .sub a b => exprStr a ++ " - " ++ exprStr b
  | .mul a b => exprStr a ++ "*" ++ exprStr b
  | .div a b => exprStr a ++ "/" ++ exprStr b
  | .neg a => "-" ++ exprStr a
  | .abs a => "Abs(" ++ exprStr a ++ ")"

/-- Exact rational evaluation, standing in for `evalf`. -/
def evalExpr : Expr → Except String ℚ
  | .num q => .ok q
  | .sym s => .error ("cannot evaluate symbol " ++ s)
  | .add a b => do pure (qAdd (← evalExpr a) (← evalExpr b))
  | .sub a b => do pure (qSub (← evalExpr a) (← evalExpr b))
  | .mul a b => do pure (qMul (← evalExpr a) (← evalExpr b))
  | .div a b => do
    let qb ← evalExpr b
    if qb = 0 then .error "division by zero" else pure (qDiv (← evalExpr a) qb)
  | .neg a => do pure (-(← evalExpr a))
  | .abs a => do pure (qAbs (← evalExpr a))

/-- The concrete model engine used to instantiate the theorems at the
examples from the specification. -/
def sympyModel : Engine where
  parse := modelParse
  solve := modelSolve
  solveReal := modelSolve
  simplify := fun e => .ok e
  evalf := evalExpr
  str := exprStr

/-- An engine whose solver succeeds with an empty solution list on
every equation, modelling the external solver on inputs for which it
finds no solutions. -/
def emptySolverEngine : Engine :=
  { sympyModel with
    solve := fun _ _ _ => .ok []
    solveReal := fun _ _ _ => .ok [] }

/-! ### Helper lemmas -/

/-- When the equation has exactly one `Abs` atom and the other side is
a plain number, the dispatcher returns the concatenation of the two
branch solution lists, branch one first. -/
theorem dispatch_split (E : Engine) (eq : Expr × Expr) (var : String)
    (a other : Expr) (l1 l2 : List Expr)
    (h1 : absAtomsEq eq = [a])
    (h2 : (if (collectAbs eq.1).contains a then eq.2 else eq.1) = other)
    (h3 : isNumber other = true)
    (h4 : E.solve (absInner a) other var = .ok l1)
    (h5 : E.solve (absInner a) (negExpr other) var = .ok l2) :
    dispatchSolutions E eq var = .ok (l1 ++ l2) := by
  simp only [dispatchSolutions, h1, h2, h3, if_true]
  rw [h4]
  simp only [bind, Except.bind]
  rw [h5]
  rfl

/-- Characters produced for decimal digits are digit characters. -/
theorem digit_char_isDigit : ∀ d, d < 10 → (Char.ofNat (48 + d)).isDigit = true := by
  decide

/-- Every character of `natDigits` is a digit. -/
theorem natDigits_isDigit (fuel : ℕ) : ∀ n, ∀ c ∈ natDigits fuel n, c.isDigit = true := by
  induction fuel with
  | zero =>
    intro n c hc
    simp [natDigits] at hc
  | succ fuel ih =>
    intro n c hc
    match n with
    | 0 => simp [natDigits] at hc
    | m + 1 =>
      rw [natDigits] at hc
      rcases List.mem_append.mp hc with h | h
      · exact ih _ c h
      · rw [List.mem_singleton] at h
        subst h
        exact digit_char_isDigit _ (Nat.mod_lt _ (by norm_num))

/-- Every character of a decimal numeral is a digit. -/
theorem natStr_isDigit (k : ℕ) : ∀ c ∈ (natStr k).data, c.isDigit = true := by
  intro c hc
  by_cases hk : k = 0
  · subst hk
    have h0 : c ∈ ['0'] := hc
    rw [List.mem_singleton] at h0
    subst h0
    decide
  · rw [natStr, if_neg hk] at hc
    exact natDigits_isDigit _ _ c hc

/-- Single-digit numerals. -/
theorem natStr_lt_ten : ∀ m, m < 10 → natStr m = String.mk [Char.ofNat (48 + m)] := by
  decide

/-- The fixed-point rendering always ends in a dot followed by exactly
one digit, and the dot occurs nowhere else. -/
theorem formatFixed1_shape (q : ℚ) :
    ∃ (s : String) (d : Char), formatFixed1 q = s ++ "." ++ String.mk [d] ∧
      d.isDigit = true ∧ '.' ∉ s.data := by
  refine ⟨(if roundTenths q < 0 then "-" else "") ++
      natStr ((roundTenths q).natAbs / 10),
    Char.ofNat (48 + (roundTenths q).natAbs % 10), ?_, ?_, ?_⟩
  · rw [formatFixed1, natStr_lt_ten _ (Nat.mod_lt _ (by norm_num))]
  · exact digit_char_isDigit _ (Nat.mod_lt _ (by norm_num))
  · intro hc
    rw [String.data_append] at hc
    rcases List.mem_append.mp hc with h | h
    · by_cases hn : roundTenths q < 0
      · rw [if_pos hn] at h
        simp at h
      · rw [if_neg hn] at h
        simp at h
    · exact absurd (natStr_isDigit _ '.' h) (by decide)

/-- Wrapping the formatted values inside the `mapM` of line 101
commutes with formatting them first. -/
theorem mapM_wrap (E : Engine) (w : String → String) :
    ∀ (sols : List Expr) (ss : List String),
      sols.mapM (format_value E) = .ok ss →
      (sols.mapM fun sol => do
        let s ← format_value E sol
        pure (w s)) = .ok (ss.map w) := by
  intro sols
  induction sols with
  | nil =>
    intro ss h
    simp only [List.mapM_nil, pure, Except.pure] at h
    cases h
    rfl
  | cons a l ih =>
    intro ss h
    rw [List.mapM_cons] at h ⊢
    cases hfa : format_value E a with
    | error e =>
      rw [hfa] at h
      simp [bind, Except.bind] at h
    | ok s =>
      rw [hfa] at h
      simp only [bind, Except.bind] at h ⊢
      cases hml : l.mapM (format_value E) with
      | error e =>
        rw [hml] at h
        simp [pure, Except.pure] at h
      | ok ls =>
        rw [hml] at h
        simp only [pure, Except.pure] at h
        cases h
        simp only [bind, Except.bind] at ih
        rw [ih ls hml]
        rfl

/-- The boolean comparison used by the embedded sort agrees with the
negation of the lexicographic strict order on character lists. -/
theorem lexLeb_iff_not_lt (as bs : List Char) :
    lexLeb as bs = true ↔ ¬ List.Lex (· < ·) bs as := by
  induction as generalizing bs with
  | nil =>
    simp only [lexLeb, true_iff]
    exact List.Lex.not_nil_right _ bs
  | cons a as ih =>
    cases bs with
    | nil =>
      simp only [lexLeb, Bool.false_eq_true, false_iff, not_not]
      exact List.Lex.nil
    | cons b bs =>
      by_cases hab : a < b
      · simp only [lexLeb, hab, if_true, true_iff]
        intro h
        cases h with
        | rel h' => exact absurd h' (lt_asymm hab)
        | cons h' => exact absurd hab (lt_irrefl a)
      · by_cases hba : b < a
        · simp only [lexLeb, hab, hba, if_true, if_false, Bool.false_eq_true, false_iff,
            not_not]
          exact List.Lex.rel hba
        · have hEq : a = b := le_antisymm (not_lt.mp hba) (not_lt.mp hab)
          subst hEq
          simp only [lexLeb, hab, if_false, ih bs]
          rw [List.Lex.cons_iff]

/-- The order the embedding sorts symbol names by is the lexicographic
string order. -/
theorem nameLe_iff (a b : String) : nameLe a b ↔ a ≤ b :=
  (lexLeb_iff_not_lt a.data b.data).trans
    (not_lt.trans String.le_iff_toList_le.symm)

instance : IsTotal String nameLe :=
  ⟨fun a b => by
    rw [nameLe_iff, nameLe_iff]
    exact le_total a b⟩

instance : IsTrans String nameLe :=
  ⟨fun a b c hab hbc =>
    (nameLe_iff a c).mpr (le_trans ((nameLe_iff a b).mp hab) ((nameLe_iff b c).mp hbc))⟩

instance : IsAntisymm String nameLe :=
  ⟨fun a b hab hba => le_antisymm ((nameLe_iff a b).mp hab) ((nameLe_iff b a).mp hba)⟩

/-- The symbol-name list of an equation does not depend on which side
a symbol occurs on. -/
theorem freeSymbols_comm (l r : Expr) : freeSymbols (l, r) = freeSymbols (r, l) := by
  have hperm :
      List.Perm (List.insertionSort nameLe (collectSyms l ++ collectSyms r).dedup)
        (List.insertionSort nameLe (collectSyms r ++ collectSyms l).dedup) :=
    ((List.perm_insertionSort _ _).trans (List.perm_append_comm).dedup).trans
      (List.perm_insertionSort _ _).symm
  exact List.eq_of_perm_of_sorted hperm
    (List.sorted_insertionSort _ _) (List.sorted_insertionSort _ _)

/-- Splitting happens at the first separator occurrence. -/
theorem splitFirst_append (pre post : List Char) (h : pre.contains '=' = false) :
    splitFirst '=' (pre ++ '=' :: post) = some (pre, post) := by
  induction pre with
  | nil => simp [splitFirst]
  | cons c cs ih =>
    simp only [List.contains_cons, Bool.or_eq_false_iff, beq_eq_false_iff_ne, ne_eq] at h
    rw [List.cons_append, splitFirst, if_neg (fun hc => h.1 hc.symm), ih h.2]

/-- A list containing the separator splits. -/
theorem splitFirst_of_contains (s : List Char) (h : s.contains '=' = true) :
    ∃ l r, splitFirst '=' s = some (l, r) := by
  induction s with
  | nil => simp [List.contains] at h
  | cons c cs ih =>
    by_cases hc : c = '='
    · exact ⟨[], cs, by simp [splitFirst, hc]⟩
    · have h2 : cs.contains '=' = true := by
        simp only [List.contains_cons, Bool.or_eq_true] at h
        rcases h with h | h
        · have heq : '=' = c := by simpa using h
          exact absurd heq.symm hc
        · exact h
      obtain ⟨l, r, hs⟩ := ih h2
      exact ⟨c :: l, r, by simp [splitFirst, hc, hs]⟩

/-- Every outcome of the parsing stage: a parsed pair, or a
`ValueError` carrying one of the two parse-error messages.  The
`Invalid equation format` branch is unreachable because a string
containing `=` always splits into exactly two parts. -/
theorem parseEquation_classify (E : Engine) (input : String) :
    (∃ eq, parseEquation E input = .ok eq) ∨
    (∃ m, parseEquation E input =
      .error (.valueError ("Could not parse equation: " ++ m))) ∨
    (∃ m, parseEquation E input =
      .error (.valueError ("Could not parse expression: " ++ m))) := by
  by_cases hc : (normalize input.data).contains '=' = true
  · obtain ⟨l, r, hs⟩ := splitFirst_of_contains _ hc
    have hsplit : splitEq1 (normalize input.data) = [l, r] := by
      rw [splitEq1, hs]
    cases hpl : E.parse (String.mk (strip l)) with
    | error e =>
      refine Or.inr (Or.inl ⟨e, ?_⟩)
      simp only [parseEquation, hc, if_true, hsplit, hpl]
    | ok le =>
      cases hpr : E.parse (String.mk (strip r)) with
      | error e =>
        refine Or.inr (Or.inl ⟨e, ?_⟩)
        simp only [parseEquation, hc, if_true, hsplit, hpl, hpr]
      | ok re =>
        refine Or.inl ⟨(le, re), ?_⟩
        simp only [parseEquation, hc, if_true, hsplit, hpl, hpr]
  · have hc' : (normalize input.data).contains '=' = false := by
      cases h : (normalize input.data).contains '=' with
      | false => rfl
      | true => exact absurd h hc
    cases hp : E.parse (String.mk (strip (normalize input.data))) with
    | error e =>
      refine Or.inr (Or.inr ⟨e, ?_⟩)
      simp only [parseEquation, hc', Bool.false_eq_true, if_false, hp]
    | ok ex =>
      refine Or.inl ⟨(ex, Expr.num 0), ?_⟩
      simp only [parseEquation, hc', Bool.false_eq_true, if_false, hp]

/-- Every outcome of the variable-selection stage. -/
theorem chooseVar_classify (eq : Expr × Expr) :
    (∃ v, chooseVar eq = .ok v) ∨
    chooseVar eq = .error (.valueError noVariableMsg) := by
  rcases h : freeSymbols eq with _ | ⟨v, vs⟩
  · exact Or.inr (by simp [chooseVar, h])
  · exact Or.inl ⟨v, by simp [chooseVar, h]⟩

/-- Every outcome of the solve-and-format stage. -/
theorem solveFormat_classify (E : Engine) (eq : Expr × Expr) (var : String) :
    (∃ s, solveFormat E eq var = .ok s) ∨
    (∃ m, solveFormat E eq var =
      .error (.valueError ("Could not solve equation: " ++ m))) := by
  cases h : solveFormatCore E eq var with
  | ok s => exact Or.inl ⟨s, by simp only [solveFormat, h]⟩
  | error e => exact Or.inr ⟨e, by simp only [solveFormat, h]⟩

/-- Every outcome of `solve_equation`: either a result string, or a
`ValueError` whose message is one of the four messages the source can
raise. -/
theorem solve_equation_classify (E : Engine) (input : String) :
    (∃ s, solve_equation E input = .ok s) ∨
    (∃ m, solve_equation E input = .error (.valueError m) ∧
      (m = noVariableMsg ∨
        (∃ e, m = "Could not parse equation: " ++ e) ∨
        (∃ e, m = "Could not parse expression: " ++ e) ∨
        (∃ e, m = "Could not solve equation: " ++ e))) := by
  rcases parseEquation_classify E input with ⟨eq, hp⟩ | ⟨m, hp⟩ | ⟨m, hp⟩
  · rcases chooseVar_classify eq with ⟨v, hv⟩ | hv
    · rcases solveFormat_classify E eq v with ⟨s, hs⟩ | ⟨m, hs⟩
      · exact Or.inl ⟨s, by
          simp only [solve_equation, bind, Except.bind, hp, hv, hs]⟩
      · exact Or.inr ⟨"Could not solve equation: " ++ m, by
          simp only [solve_equation, bind, Except.bind, hp, hv, hs],
          Or.inr (Or.inr (Or.inr ⟨m, rfl⟩))⟩
    · exact Or.inr ⟨noVariableMsg, by
        simp only [solve_equation, bind, Except.bind, hp, hv], Or.inl rfl⟩
  · exact Or.inr ⟨"Could not parse equation: " ++ m, by
      simp only [solve_equation, bind, Except.bind, hp], Or.inr (Or.inl ⟨m, rfl⟩)⟩
  · exact Or.inr ⟨"Could not parse expression: " ++ m, by
      simp only [solve_equation, bind, Except.bind, hp],
      Or.inr (Or.inr (Or.inl ⟨m, rfl⟩))⟩

/-- A string starting with a character other than `I` is not the
format-error message. -/
theorem append_ne_invalid (p e : String) (c : Char) (cs : List Char)
    (hp : p.data = c :: cs) (hne : c ≠ 'I') :
    p ++ e ≠ "Invalid equation format" := by
  intro h
  have hd := congrArg String.data h
  rw [String.data_append, hp, List.cons_append,
    show "Invalid equation format".data = 'I' :: "nvalid equation format".data
      from rfl] at hd
  injection hd with h1 _
  exact hne h1

/-- None of the four raisable messages is the format-error message. -/
theorem msg_ne_invalid (m : String)
    (hm : m = noVariableMsg ∨
      (∃ e, m = "Could not parse equation: " ++ e) ∨
      (∃ e, m = "Could not parse expression: " ++ e) ∨
      (∃ e, m = "Could not solve equation: " ++ e)) :
    m ≠ "Invalid equation format" := by
  rcases hm with h | ⟨e, h⟩ | ⟨e, h⟩ | ⟨e, h⟩
  · subst h
    decide
  · subst h
    exact append_ne_invalid _ e 'C' "ould not parse equation: ".data rfl (by decide)
  · subst h
    exact append_ne_invalid _ e 'C' "ould not parse expression: ".data rfl (by decide)
  · subst h
    exact append_ne_invalid _ e 'C' "ould not solve equation: ".data rfl (by decide)

/-! ### Claims -/

/-- C1: with exactly one absolute-value atom whose other side is a
plain numeric constant, the dispatcher splits `Abs(inner) = c` into
the branches `inner = c` and `inner = -c` and returns the
concatenation of the two branch solution lists, branch one first; in
particular `solve_equation("|x - 3| = 5")` yields
`x = "8.0", x = "-2.0"` in that order. -/
theorem C1_abs_split :
    (∀ (E : Engine) (eq : Expr × Expr) (var : String) (a other : Expr)
        (l1 l2 : List Expr),
      absAtomsEq eq = [a] →
      (if (collectAbs eq.1).contains a then eq.2 else eq.1) = other →
      isNumber other = true →
      E.solve (absInner a) other var = .ok l1 →
      E.solve (absInner a) (negExpr other) var = .ok l2 →
      dispatchSolutions E eq var = .ok (l1 ++ l2)) ∧
    solve_equation sympyModel "|x - 3| = 5" = .ok ("x = \"8.0\", x = \"-2.0\"") :=
  ⟨fun E eq var a other l1 l2 h1 h2 h3 h4 h5 =>
    dispatch_split E eq var a other l1 l2 h1 h2 h3 h4 h5, rfl⟩

/-- Witness for C1 at the concrete equation `Abs(x - 3) = 5` and the
model engine: the dispatcher output is the branch-one list followed by
the branch-two list. -/
theorem C1_abs_split_witness :
    dispatchSolutions sympyModel
      (Expr.abs (Expr.sub (Expr.sym "x") (Expr.num 3)), Expr.num 5) "x" =
      .ok ([Expr.num 8] ++ [Expr.num (-2)]) :=
  C1_abs_split.1 sympyModel
    (Expr.abs (Expr.sub (Expr.sym "x") (Expr.num 3)), Expr.num 5) "x"
    (Expr.abs (Expr.sub (Expr.sym "x") (Expr.num 3))) (Expr.num 5)
    [Expr.num 8] [Expr.num (-2)] rfl rfl rfl rfl rfl

/-- C4: the case split carries no non-negativity check on the numeric
other side: with a negative constant `c` the dispatcher still produces
both branches and returns their concatenated solutions; in particular
`solve_equation("|x| = -5")` returns `x = "-5.0", x = "5.0"` instead
of rejecting the unsatisfiable equation. -/
theorem C4_no_nonneg_check :
    (∀ (E : Engine) (eq : Expr × Expr) (var : String) (a : Expr) (c : ℚ)
        (l1 l2 : List Expr),
      absAtomsEq eq = [a] →
      (if (collectAbs eq.1).contains a then eq.2 else eq.1) = Expr.num c →
      c < 0 →
      E.solve (absInner a) (Expr.num c) var = .ok l1 →
      E.solve (absInner a) (Expr.num (-c)) var = .ok l2 →
      dispatchSolutions E eq var = .ok (l1 ++ l2)) ∧
    solve_equation sympyModel "|x| = -5" = .ok ("x = \"-5.0\", x = \"5.0\"") := by
  constructor
  · intro E eq var a c l1 l2 h1 h2 _hc h4 h5
    exact dispatch_split E eq var a (Expr.num c) l1 l2 h1 h2 rfl h4 h5
  · rfl

/-- Witness for C4 at the concrete equation `Abs(x) = -5` with the
model engine. -/
theorem C4_no_nonneg_check_witness :
    dispatchSolutions sympyModel (Expr.abs (Expr.sym "x"), Expr.num (-5)) "x" =
      .ok ([Expr.num (-5)] ++ [Expr.num 5]) :=
  C4_no_nonneg_check.1 sympyModel (Expr.abs (Expr.sym "x"), Expr.num (-5)) "x"
    (Expr.abs (Expr.sym "x")) (-5) [Expr.num (-5)] [Expr.num 5]
    rfl rfl (by norm_num) rfl rfl

/-- C2: the source does not replace the Unicode minus sign U+2212.
The replacement literal on line 24 is the mojibake three-character
sequence U+00E2 U+02C6 U+2019 (shown by the second conjunct, which is
what the code actually rewrites to `-`), so a normalised string can
still contain U+2212, contradicting the claim. -/
theorem C2_unicode_minus_bug :
    (normalize ['x', uminus, '1']).contains uminus = true ∧
    normalize [mojA, mojB, mojC] = ['-'] := by
  exact ⟨by decide, by decide⟩

/-- C8: normalisation is not a no-op on every string free of `^`,
U+2212 and `|`: the mojibake sequence U+00E2 U+02C6 U+2019 contains
none of those characters yet is rewritten to `-`. -/
theorem C8_idempotence_bug :
    ([mojA, mojB, mojC].contains '^' = false ∧
      [mojA, mojB, mojC].contains uminus = false ∧
      [mojA, mojB, mojC].contains '|' = false) ∧
    normalize [mojA, mojB, mojC] ≠ [mojA, mojB, mojC] := by
  exact ⟨⟨by decide, by decide, by decide⟩, by decide⟩

/-- C7: when the solver succeeds with an empty solution list,
`solve_equation` returns the no-solution message as a successful
result rather than an error or an empty result. -/
theorem C7_empty_solutions (E : Engine) (input : String) (eq : Expr × Expr)
    (var : String)
    (h1 : parseEquation E input = .ok eq)
    (h2 : chooseVar eq = .ok var)
    (h3 : dispatchSolutions E eq var = .ok []) :
    solve_equation E input = .ok ("No solution found for " ++ var ++ ".") := by
  simp only [solve_equation, bind, Except.bind, h1, h2]
  simp only [solveFormat, solveFormatCore, bind, Except.bind, h3, pure, Except.pure]

/-- Witness for C7: an engine whose solver reports no solutions on
`x = 1`. -/
theorem C7_empty_solutions_witness :
    solve_equation emptySolverEngine "x = 1" =
      .ok ("No solution found for " ++ "x" ++ ".") :=
  C7_empty_solutions emptySolverEngine "x = 1" (Expr.sym "x", Expr.num 1) "x"
    rfl rfl rfl

/-- C9: the `/solve` boundary returns 400 with the exact
missing-parameter body when the parameter is absent or empty after
stripping (for every core, hence without invoking it), maps a core
`ValueError` to 400 with the error's message, any other core error to
500 with the wrapping prefix, and success to 200 with the result. -/
theorem C9_http_boundary :
    (∀ core : String → Except PyError String,
      solveHandler core none = ⟨400, "error", missingParamMsg⟩) ∧
    (∀ (core : String → Except PyError String) (s : String), stripStr s = "" →
      solveHandler core (some s) = ⟨400, "error", missingParamMsg⟩) ∧
    (∀ (core : String → Except PyError String) (s m : String), stripStr s ≠ "" →
      core (stripStr s) = .error (.valueError m) →
      solveHandler core (some s) = ⟨400, "error", m⟩) ∧
    (∀ (core : String → Except PyError String) (s m : String), stripStr s ≠ "" →
      core (stripStr s) = .error (.otherError m) →
      solveHandler core (some s) = ⟨500, "error", "Error solving equation: " ++ m⟩) ∧
    (∀ (core : String → Except PyError String) (s r : String), stripStr s ≠ "" →
      core (stripStr s) = .ok r →
      solveHandler core (some s) = ⟨200, "result", r⟩) := by
  refine ⟨fun core => rfl, fun core s h => ?_, fun core s m h hc => ?_,
    fun core s m h hc => ?_, fun core s r h hc => ?_⟩
  · simp [solveHandler, h]
  · simp [solveHandler, h, hc]
  · simp [solveHandler, h, hc]
  · simp [solveHandler, h, hc]

/-- Witness for C9, instantiating each branch with a concrete core
function and parameter. -/
theorem C9_http_boundary_witness :
    solveHandler (fun _ => Except.ok "r") none = ⟨400, "error", missingParamMsg⟩ ∧
    solveHandler (fun _ => Except.ok "r") (some " ") = ⟨400, "error", missingParamMsg⟩ ∧
    solveHandler (fun _ => Except.error (PyError.valueError "bad")) (some "x") =
      ⟨400, "error", "bad"⟩ ∧
    solveHandler (fun _ => Except.error (PyError.otherError "boom")) (some "x") =
      ⟨500, "error", "Error solving equation: " ++ "boom"⟩ ∧
    solveHandler (fun _ => Except.ok "r") (some "x") = ⟨200, "result", "r"⟩ :=
  ⟨C9_http_boundary.1 _,
    C9_http_boundary.2.1 _ " " rfl,
    C9_http_boundary.2.2.1 _ "x" "bad" (by decide) rfl,
    C9_http_boundary.2.2.2.1 _ "x" "boom" (by decide) rfl,
    C9_http_boundary.2.2.2.2 _ "x" "r" (by decide) rfl⟩

/-- C5: the result formatter simplifies each value, renders a numeric
value in fixed-point form with exactly one digit after the decimal
point, renders a symbolic value verbatim through the engine's printer,
wraps each rendered value as `var = "value"`, and joins several
formatted solutions with `", "` in dispatch order; concretely,
`solve_equation("x + 5 = 10")` returns `x = "5.0"`. -/
theorem C5_formatter :
    (∀ (E : Engine) (v e : Expr) (q : ℚ),
      E.simplify v = .ok e → isNumber e = true → E.evalf e = .ok q →
      format_value E v = .ok (formatFixed1 q)) ∧
    (∀ (E : Engine) (v e : Expr),
      E.simplify v = .ok e → isNumber e = false →
      format_value E v = .ok (E.str e)) ∧
    (∀ q : ℚ, ∃ (s : String) (d : Char),
      formatFixed1 q = s ++ "." ++ String.mk [d] ∧ d.isDigit = true ∧
        '.' ∉ s.data) ∧
    (∀ (E : Engine) (eq : Expr × Expr) (var : String) (sols : List Expr)
        (ss : List String),
      dispatchSolutions E eq var = .ok sols → sols ≠ [] →
      sols.mapM (format_value E) = .ok ss →
      solveFormat E eq var =
        .ok (String.intercalate ", "
          (ss.map fun s => var ++ " = \"" ++ s ++ "\""))) ∧
    solve_equation sympyModel "x + 5 = 10" = .ok ("x = \"5.0\"") := by
  refine ⟨fun E v e q h1 h2 h3 => ?_, fun E v e h1 h2 => ?_, formatFixed1_shape,
    fun E eq var sols ss hd hne hss => ?_, rfl⟩
  · simp only [format_value, bind, Except.bind, h1, h2, if_true, h3, pure, Except.pure]
  · simp only [format_value, bind, Except.bind, h1, h2, Bool.false_eq_true, if_false,
      pure, Except.pure]
  · unfold solveFormat solveFormatCore
    rw [hd]
    match sols, hne with
    | s1 :: rest, _ =>
      cases rest with
      | nil =>
        rw [List.mapM_cons, List.mapM_nil] at hss
        cases hfa : format_value E s1 with
        | error e =>
          rw [hfa] at hss
          simp [bind, Except.bind] at hss
        | ok s =>
          rw [hfa] at hss
          simp only [bind, Except.bind, pure, Except.pure] at hss
          cases hss
          simp only [bind, Except.bind, hfa, pure, Except.pure]
          rfl
      | cons s2 rest2 =>
        have hw := mapM_wrap E (fun s => var ++ " = \"" ++ s ++ "\"")
          (s1 :: s2 :: rest2) ss hss
        simp only [bind, Except.bind] at hw ⊢
        rw [hw]
        rfl

/-- Witness for C5: the numeric, symbolic and joining conjuncts
instantiated at the model engine. -/
theorem C5_formatter_witness :
    format_value sympyModel (Expr.num 5) = .ok (formatFixed1 5) ∧
    format_value sympyModel (Expr.sym "y") = .ok (sympyModel.str (Expr.sym "y")) ∧
    solveFormat sympyModel (Expr.add (Expr.sym "x") (Expr.num 5), Expr.num 10) "x" =
      .ok (String.intercalate ", "
        (["5.0"].map fun s => "x" ++ " = \"" ++ s ++ "\"")) :=
  ⟨C5_formatter.1 sympyModel (Expr.num 5) (Expr.num 5) 5 rfl rfl rfl,
    C5_formatter.2.1 sympyModel (Expr.sym "y") (Expr.sym "y") rfl rfl,
    C5_formatter.2.2.2.1 sympyModel (Expr.add (Expr.sym "x") (Expr.num 5), Expr.num 10)
      "x" [Expr.num 5] ["5.0"] rfl (by decide) rfl⟩

/-- C6: with more than one free symbol, the variable selector returns
the symbol whose name is lexicographically least, independently of
which side of the equation each symbol occurs on; concretely, parsing
`x + y = 10`, `y + x = 10` or `10 = x + y` always selects `x`. -/
theorem C6_var_selection :
    (∀ eq : Expr × Expr, 1 < (freeSymbols eq).length →
      ∃ v, chooseVar eq = .ok v ∧ v ∈ freeSymbols eq ∧
        ∀ w ∈ freeSymbols eq, v ≤ w) ∧
    (∀ l r : Expr, chooseVar (l, r) = chooseVar (r, l)) ∧
    ((parseEquation sympyModel "x + y = 10").map chooseVar = .ok (.ok "x") ∧
      (parseEquation sympyModel "y + x = 10").map chooseVar = .ok (.ok "x") ∧
      (parseEquation sympyModel "10 = x + y").map chooseVar = .ok (.ok "x")) := by
  refine ⟨fun eq hlen => ?_, fun l r => ?_, rfl, rfl, rfl⟩
  · have hs : List.Sorted nameLe (freeSymbols eq) :=
      List.sorted_insertionSort nameLe ((collectSyms eq.1 ++ collectSyms eq.2).dedup)
    match h : freeSymbols eq with
    | [] => rw [h] at hlen; simp at hlen
    | v :: rest =>
      refine ⟨v, ?_, ?_, ?_⟩
      · simp [chooseVar, h]
      · exact List.mem_cons_self v rest
      · intro w hw
        rw [h] at hs
        rcases List.mem_cons.mp hw with hw | hw
        · exact hw ▸ le_refl v
        · exact (nameLe_iff v w).mp (List.rel_of_sorted_cons hs w hw)
  · unfold chooseVar
    rw [show freeSymbols (l, r) = freeSymbols (r, l) from freeSymbols_comm l r]

/-- Witness for C6 at the parsed model equation of `y + x = 10`. -/
theorem C6_var_selection_witness :
    ∃ v, chooseVar (Expr.add (Expr.sym "y") (Expr.sym "x"), Expr.num 10) = .ok v ∧
      v ∈ freeSymbols (Expr.add (Expr.sym "y") (Expr.sym "x"), Expr.num 10) ∧
      ∀ w ∈ freeSymbols (Expr.add (Expr.sym "y") (Expr.sym "x"), Expr.num 10),
        v ≤ w :=
  C6_var_selection.1 (Expr.add (Expr.sym "y") (Expr.sym "x"), Expr.num 10)
    (by decide)

/-- C3 counterexample: at the input `x =`, whose right side is empty
after trimming, `solve_equation` fails with the could-not-parse error,
not with the invalid-equation-format error the claim asserts. -/
theorem C3_empty_side_counterexample :
    solve_equation sympyModel "x =" =
      .error (.valueError ("Could not parse equation: " ++ "could not parse input")) ∧
    ("Could not parse equation: " ++ "could not parse input") ≠
      "Invalid equation format" :=
  ⟨rfl, by decide⟩

/-- C3 as amended: the parser splits at the first `=` only and trims
whitespace from both sides; a side that is empty after trimming fails
with the could-not-parse error (assuming the engine's parser rejects
the empty string); and the invalid-equation-format error is
unreachable for every engine and input. -/
theorem C3_split_and_empty_sides :
    (∀ pre post : List Char, pre.contains '=' = false →
      splitEq1 (pre ++ '=' :: post) = [pre, post]) ∧
    (∀ (E : Engine) (input : String) (l r : List Char) (m : String),
      splitEq1 (normalize input.data) = [l, r] →
      (normalize input.data).contains '=' = true →
      strip l = [] →
      E.parse "" = .error m →
      solve_equation E input =
        .error (.valueError ("Could not parse equation: " ++ m))) ∧
    (∀ (E : Engine) (input : String) (l r : List Char) (le : Expr) (m : String),
      splitEq1 (normalize input.data) = [l, r] →
      (normalize input.data).contains '=' = true →
      E.parse (String.mk (strip l)) = .ok le →
      strip r = [] →
      E.parse "" = .error m →
      solve_equation E input =
        .error (.valueError ("Could not parse equation: " ++ m))) ∧
    (∀ (E : Engine) (input : String),
      solve_equation E input ≠ .error (.valueError "Invalid equation format")) := by
  refine ⟨fun pre post h => ?_, fun E input l r m hsplit hc hl hp => ?_,
    fun E input l r le m hsplit hc hple hr hp => ?_, fun E input => ?_⟩
  · rw [splitEq1, splitFirst_append pre post h]
  · have hmkl : String.mk (strip l) = "" := by rw [hl]
    have hpe : parseEquation E input =
        .error (.valueError ("Could not parse equation: " ++ m)) := by
      simp only [parseEquation, hc, if_true, hsplit, hmkl, hp]
    simp only [solve_equation, bind, Except.bind, hpe]
  · have hmkr : String.mk (strip r) = "" := by rw [hr]
    have hpe : parseEquation E input =
        .error (.valueError ("Could not parse equation: " ++ m)) := by
      simp only [parseEquation, hc, if_true, hsplit, hple, hmkr, hp]
    simp only [solve_equation, bind, Except.bind, hpe]
  · rcases solve_equation_classify E input with ⟨s, h⟩ | ⟨m, h, hm⟩
    · rw [h]
      intro hcontra
      cases hcontra
    · rw [h]
      intro hcontra
      injection hcontra with h1
      injection h1 with h2
      exact msg_ne_invalid m hm h2

/-- Witness for C3: the split conjunct at `x ` and ` 5`, and the
empty-side conjuncts at the model engine on `= 5` and `x =`. -/
theorem C3_split_and_empty_sides_witness :
    splitEq1 ("x ".data ++ '=' :: " 5".data) = ["x ".data, " 5".data] ∧
    solve_equation sympyModel "= 5" =
      .error (.valueError ("Could not parse equation: " ++ "could not parse input")) ∧
    solve_equation sympyModel " x  =" =
      .error (.valueError ("Could not parse equation: " ++ "could not parse input")) :=
  ⟨C3_split_and_empty_sides.1 "x ".data " 5".data (by decide),
    C3_split_and_empty_sides.2.1 sympyModel "= 5" [] " 5".data
      "could not parse input" rfl rfl rfl rfl,
    C3_split_and_empty_sides.2.2.1 sympyModel " x  =" " x  ".data []
      (Expr.sym "x") "could not parse input" rfl rfl rfl rfl rfl⟩

/-- C10: `solve_equation` either returns a string or fails with a
`ValueError`; it never produces any other exception kind, so the
HTTP 500 branch of the handler is unreachable through it: the handler
status is always 200 or 400. -/
theorem C10_only_valueError :
    (∀ (E : Engine) (input : String),
      (∃ s, solve_equation E input = .ok s) ∨
      (∃ m, solve_equation E input = .error (.valueError m))) ∧
    (∀ (E : Engine) (param : Option String),
      (solveHandler (solve_equation E) param).status = 200 ∨
      (solveHandler (solve_equation E) param).status = 400) := by
  constructor
  · intro E input
    rcases solve_equation_classify E input with ⟨s, h⟩ | ⟨m, h, _⟩
    · exact Or.inl ⟨s, h⟩
    · exact Or.inr ⟨m, h⟩
  · intro E param
    by_cases he : stripStr (param.getD "") = ""
    · right
      simp [solveHandler, he]
    · rcases solve_equation_classify E (stripStr (param.getD "")) with ⟨s, h⟩ | ⟨m, h, _⟩
      · left
        simp [solveHandler, he, h]
      · right
        simp [solveHandler, he, h]

end EquationApp
